import Mathlib

/-!
Verification of the Maskerad object-pool allocator (maskerad_object_pool).

The development shallowly embeds the reference-count-based pool variants
(`RcPool`/`RcHandle` from src/refcounted_pool_allocator.rs and
src/refcounted_pool_handler.rs, `ArcPool`/`ArcHandle` from
src/concurrent_pool_allocator.rs and src/concurrent_pool_handler.rs) and the
superseded boolean-flag variant (`ObjectPool`/`PoolObjectHandler` from
src/pool_allocator.rs).

Modelling conventions:
- An `Rc<RefCell<T>>` (resp. `Arc<RwLock<T>>`) cell is modelled as a record
  holding the payload and the strong reference count (`Rc::strong_count`).
  A pool is the list of the cells its `Vec` of handles points to; a handle
  held by a caller is identified by the index of its cell in that list.
- The consumer-supplied `Recyclable::reinitialize` method is an arbitrary
  function `reinit : T → T` applied in place.
- Rust `Fn() -> T` factory closures are modelled as `Nat → T`, the argument
  being the invocation number (a `Fn` closure may observe interior-mutable
  state, so successive calls can differ).
- State-mutating methods become functions from pool state to pool state
  (paired with the returned index where the Rust method returns a handle).
-/

/-- First index of the list satisfying the predicate: the index of the element
that `iter().find(pred)` returns, `none` when `find` returns `None`. -/
def firstIdx (p : α → Bool) : List α → Option Nat
  | [] => none
  | x :: xs => if p x then some 0 else (firstIdx p xs).map (· + 1)

/-- Apply `f` to the element at index `i`, leaving the rest of the list
unchanged: the effect, seen from the pool's backing vector, of mutating the
shared cell behind the handle at index `i`. -/
def updateAt : Nat → (α → α) → List α → List α
  | _, _, [] => []
  | 0, f, x :: xs => f x :: xs
  | i + 1, f, x :: xs => x :: updateAt i f xs

/-- State of the shared cell behind one `RcHandle<T>`, i.e. of the
`Rc<RefCell<T>>` it wraps (src/refcounted_pool_handler.rs, line 23):
the payload stored in the `RefCell` and the strong reference count of the
`Rc` (`Rc::strong_count`). The pool's backing vector permanently holds one
of the strong references. -/
structure RcCell (T : Type) where
  payload : T
  strong_count : Nat
deriving Repr, DecidableEq

/-- Embeds `pub struct RcPool<T: Recyclable>(Vec<RcHandle<T>>)`
(src/refcounted_pool_allocator.rs, line 81): the list of the cells the
pool's handles point to, in vector order. -/
structure RcPool (T : Type) where
  slots : List (RcCell T)
deriving Repr, DecidableEq

/-- The predicate of the scans in `create`, `create_strict` and `nb_unused`:
`Rc::strong_count(obj.as_ref()) == 1` (a free slot, only the pool holds it). -/
def RcCell.is_free (c : RcCell T) : Bool :=
  c.strong_count == 1

/-- Embeds `RcPool::with_capacity(size, op)`
(src/refcounted_pool_allocator.rs, lines 122-133): push `RcHandle::new(op())`
`size` times onto an empty vector. The `i`-th invocation of the factory
closure is modelled as `op i`; each fresh `Rc` starts with strong count 1. -/
def RcPool.with_capacity (size : Nat) (op : Nat → T) : RcPool T :=
  ⟨(List.range size).map (fun i => { payload := op i, strong_count := 1 })⟩

/-- Embeds `RcPool::pool_slice` (src/refcounted_pool_allocator.rs,
lines 183-185): an immutable view of the backing vector. -/
def RcPool.pool_slice (p : RcPool T) : List (RcCell T) :=
  p.slots

/-- Embeds `RcPool::create` (src/refcounted_pool_allocator.rs,
lines 301-309): find the first handle whose strong count is 1 and return a
clone of it. The returned handle is identified by its index; cloning the
`Rc` increments the shared cell's strong count, which is the state change
recorded in the returned pool. -/
def RcPool.create (p : RcPool T) : Option (Nat × RcPool T) :=
  match firstIdx RcCell.is_free p.pool_slice with
  | some i =>
      some (i, ⟨updateAt i (fun c => { c with strong_count := c.strong_count + 1 }) p.slots⟩)
  | none => none

/-- Embeds `pub enum PoolError` (the error enumeration of errors.rs, in the
shape the pool modules import: a `PoolError` variant carrying a description
string). -/
inductive PoolError where
  | poolError (description : String) : PoolError
deriving Repr, DecidableEq

/-- Embeds `pub type PoolResult<T> = Result<T, PoolError>`. -/
abbrev PoolResult (α : Type) : Type := Except PoolError α

/-- Embeds `RcPool::create_strict` (src/refcounted_pool_allocator.rs,
lines 241-251): the same scan as `create`, but exhaustion becomes an
explicit `PoolError`. -/
def RcPool.create_strict (p : RcPool T) : PoolResult (Nat × RcPool T) :=
  match firstIdx RcCell.is_free p.pool_slice with
  | some i =>
      .ok (i, ⟨updateAt i (fun c => { c with strong_count := c.strong_count + 1 }) p.slots⟩)
  | none => .error (.poolError "The RcPool is out of objects !")

/-- Embeds `RcPool::nb_unused` (src/refcounted_pool_allocator.rs,
lines 353-358): count of handles whose strong count is exactly 1. -/
def RcPool.nb_unused (p : RcPool T) : Nat :=
  p.pool_slice.countP RcCell.is_free

/-- Embeds `RcPool::capacity` (src/refcounted_pool_allocator.rs,
lines 399-401): the capacity of the backing vector. `Vec::with_capacity(size)`
followed by exactly `size` pushes keeps the capacity equal to the length, and
no operation of the pool ever pushes or pops, so the capacity is the length
of the slot list. -/
def RcPool.capacity (p : RcPool T) : Nat :=
  p.slots.length

/-- Embeds the effect of `impl Drop for RcHandle` followed by the drop of the
inner `Rc` (src/refcounted_pool_handler.rs, lines 333-347) on the shared
cell: if the strong count at the moment the destructor runs is exactly 2,
the payload is reinitialized; then the `Rc` itself is dropped, decrementing
the strong count. -/
def RcHandle.drop_cell (reinit : T → T) (c : RcCell T) : RcCell T :=
  { payload := if c.strong_count = 2 then reinit c.payload else c.payload,
    strong_count := c.strong_count - 1 }

/-- Dropping the externally held handle whose cell sits at index `i` of the
pool's backing vector (the pool-level view of `impl Drop for RcHandle`,
src/refcounted_pool_handler.rs, lines 333-347). -/
def RcPool.drop_handle (reinit : T → T) (p : RcPool T) (i : Nat) : RcPool T :=
  ⟨updateAt i (RcHandle.drop_cell reinit) p.slots⟩

/-- Mutating the payload behind the handle at index `i` through
`RcHandle::borrow_mut` (src/refcounted_pool_handler.rs, lines 212-214):
applies `g` to the payload, touching no reference count. -/
def RcPool.mutate (p : RcPool T) (i : Nat) (g : T → T) : RcPool T :=
  ⟨updateAt i (fun c => { c with payload := g c.payload }) p.slots⟩

/-- Embeds `#[derive(Clone)]` on `RcPool` (src/refcounted_pool_allocator.rs,
line 79) together with `impl Clone for RcHandle`
(src/refcounted_pool_handler.rs, lines 349-353): cloning the pool clones the
`Vec`, which clones every `RcHandle`, which clones every inner `Rc`,
incrementing every cell's strong count by one. The original and the clone
alias the same cells, so this is the shared state both observe afterwards. -/
def RcPool.clone (p : RcPool T) : RcPool T :=
  ⟨p.slots.map (fun c => { c with strong_count := c.strong_count + 1 })⟩

/-- `n` successive `create` calls, keeping every returned handle alive
(no intervening drops); `none` as soon as one acquisition fails. -/
def RcPool.createN : Nat → RcPool T → Option (RcPool T)
  | 0, p => some p
  | n + 1, p =>
    match p.create with
    | some (_, p') => RcPool.createN n p'
    | none => none


/-- Observation of `create` through the caller's borrow: `create` takes
`&self`, so when the scan fails the pool is left exactly as it was; on
success the caller sees the returned handle's index and the pool whose
chosen cell's count was bumped by the clone. -/
def RcPool.create_observed (p : RcPool T) : Option Nat × RcPool T :=
  match p.create with
  | some (i, p') => (some i, p')
  | none => (none, p)

/-- State of the `RwLock<T>` inside an `ArcHandle<T>`
(src/concurrent_pool_handler.rs, line 23): current shared readers, whether a
writer holds the lock, and the poisoned flag. -/
structure LockState where
  readers : Nat
  writer : Bool
  poisoned : Bool
deriving Repr, DecidableEq

/-- `RwLock::try_write` hands out the guard exactly when no reader and no
writer holds the lock and the lock is not poisoned; in every other case
`ArcHandle::try_write` reports a `TryLockError` (`WouldBlock` on contention,
`Poisoned` on a poisoned lock). -/
def LockState.try_write_ok (l : LockState) : Bool :=
  l.readers == 0 && !l.writer && !l.poisoned

/-- State of the shared cell behind one `ArcHandle<T>`, i.e. of the
`Arc<RwLock<T>>` it wraps (src/concurrent_pool_handler.rs, line 23):
payload, strong reference count of the `Arc`, and the lock's state. -/
structure ArcCell (T : Type) where
  payload : T
  strong_count : Nat
  lock : LockState
deriving Repr, DecidableEq

/-- The two variants of `std::sync::TryLockError`. -/
inductive TryLockErr where
  | poisoned
  | wouldBlock
deriving Repr, DecidableEq

/-- Embeds `ArcHandle::drop_handle` (src/concurrent_pool_handler.rs,
lines 320-341): when the strong count is exactly 2, try to take the write
lock without blocking; on success reinitialize the payload, otherwise
return the `TryLockError`. At any other count do nothing and succeed.
The strong count itself is untouched here: the inner `Arc` is dropped only
after the destructor body returns. -/
def ArcHandle.drop_handle (reinit : T → T) (c : ArcCell T) :
    Except TryLockErr (ArcCell T) :=
  if c.strong_count = 2 then
    if c.lock.writer || c.lock.readers != 0 then .error .wouldBlock
    else if c.lock.poisoned then .error .poisoned
    else .ok { c with payload := reinit c.payload }
  else .ok c

/-- Embeds `impl Drop for ArcHandle` (src/concurrent_pool_handler.rs,
lines 343-352): `self.drop_handle().unwrap()` — an `Err` makes the drop
panic, modelled as `none` — followed by the drop of the inner `Arc`, which
decrements the strong count. -/
def ArcHandle.drop (reinit : T → T) (c : ArcCell T) : Option (ArcCell T) :=
  match ArcHandle.drop_handle reinit c with
  | .ok c' => some { c' with strong_count := c'.strong_count - 1 }
  | .error _ => none

/-- Embeds `PoolObject<T>` of the superseded boolean-flag variant
(src/pool_allocator.rs, lines 134-137): the payload plus the explicit
`in_use` flag. -/
structure PoolObject (T : Type) where
  object : T
  in_use : Bool
deriving Repr, DecidableEq

/-- Embeds `PoolObject::reinitialize` (src/pool_allocator.rs, lines 160-163):
the payload becomes `T::default()` (passed here as the value `default`) and
the flag goes back to false. -/
def PoolObject.reinitialize (default : T) (_x : PoolObject T) : PoolObject T :=
  { object := default, in_use := false }

/-- State of the shared cell behind one `PoolObjectHandler<T>`, i.e. of the
`Rc<RefCell<PoolObject<T>>>` it wraps (src/pool_allocator.rs, line 111). -/
structure ObjCell (T : Type) where
  obj : PoolObject T
  strong_count : Nat
deriving Repr, DecidableEq

/-- Embeds `pub struct ObjectPool<T: Default>(Vec<PoolObjectHandler<T>>)`
(src/pool_allocator.rs, line 214). -/
structure ObjectPool (T : Type) where
  slots : List (ObjCell T)
deriving Repr, DecidableEq

/-- Embeds `ObjectPool::force_create_with_filter` (src/pool_allocator.rs,
lines 240-251): `self.iter().find(predicate)` over every handle, free or
checked out; on the first match, `reinitialize()` the `PoolObject` (payload
back to `T::default()`, flag to false), then `set_used(true)`, then return a
clone of the handle (incrementing the cell's strong count). -/
def ObjectPool.force_create_with_filter (default : T) (pred : ObjCell T → Bool)
    (p : ObjectPool T) : Option (Nat × ObjectPool T) :=
  match firstIdx pred p.slots with
  | some i =>
      some (i, ⟨updateAt i (fun c =>
        { obj := { object := default, in_use := true },
          strong_count := c.strong_count + 1 }) p.slots⟩)
  | none => none

/-- Embeds `ObjectPool::nb_unused` (src/pool_allocator.rs, lines 253-255):
count of handles whose `PoolObject` has `in_use == false`. -/
def ObjectPool.nb_unused (p : ObjectPool T) : Nat :=
  p.slots.countP (fun c => !c.obj.in_use)

/-- The payload type of the repository's tests and doc examples
(`refcounted_objectpool_tests::Monster`, trimmed to its two numeric fields). -/
structure Monster where
  level : Nat
  hp : Nat
deriving Repr, DecidableEq

/-- The test Monster's `Default::default()`: level 10, hp 10. -/
def Monster.default : Monster :=
  { level := 10, hp := 10 }

/-- The test Monster's `Recyclable::reinitialize`
(src/refcounted_pool_allocator.rs, lines 441-446): level 1, hp 1. -/
def Monster.reinitialize (_m : Monster) : Monster :=
  { level := 1, hp := 1 }

/-- The test Monster's `level_up` (src/refcounted_pool_allocator.rs,
lines 428-430): increment the level. -/
def Monster.level_up (m : Monster) : Monster :=
  { m with level := m.level + 1 }

/-- Concrete two-slot pool state: slot 0 checked out (count 2), slot 1
free (count 1). Used to instantiate the general theorems. -/
def rcPoolW : RcPool Monster :=
  ⟨[{ payload := Monster.default, strong_count := 2 },
    { payload := Monster.default, strong_count := 1 }]⟩

/-- Concrete fully free two-slot pool state. -/
def rcPoolFree : RcPool Monster :=
  ⟨[{ payload := Monster.default, strong_count := 1 },
    { payload := Monster.default, strong_count := 1 }]⟩


/-- Concrete `ArcHandle` cell: strong count 2, lock held by one reader. -/
def arcCellContended : ArcCell Monster :=
  { payload := Monster.default, strong_count := 2,
    lock := { readers := 1, writer := false, poisoned := false } }

/-- Concrete two-slot `ObjectPool` state, both slots checked out, the second
one's monster levelled up to 11. -/
def objPoolW : ObjectPool Monster :=
  ⟨[{ obj := { object := Monster.default, in_use := true }, strong_count := 2 },
    { obj := { object := { level := 11, hp := 10 }, in_use := true },
      strong_count := 2 }]⟩

/-- The pool state `create` leaves behind on the concrete input `rcPoolW`:
both slots checked out. -/
def rcPoolWAfter : RcPool Monster :=
  ⟨[{ payload := Monster.default, strong_count := 2 },
    { payload := Monster.default, strong_count := 2 }]⟩

/-- The pool state forced acquisition leaves behind on `objPoolW` when the
predicate selects the level-11 slot: slot 1 reset to the default monster,
still in use, with a third strong reference. -/
def objPoolWAfter : ObjectPool Monster :=
  ⟨[{ obj := { object := Monster.default, in_use := true }, strong_count := 2 },
    { obj := { object := Monster.default, in_use := true },
      strong_count := 3 }]⟩
theorem firstIdx_nil (p : α → Bool) : firstIdx p [] = none := rfl

theorem firstIdx_eq_none_iff (p : α → Bool) (xs : List α) :
    firstIdx p xs = none ↔ ∀ x ∈ xs, p x = false := by
  induction xs with
  | nil => simp [firstIdx]
  | cons x xs ih =>
    cases hx : p x with
    | true => simp [firstIdx, hx]
    | false =>
      rw [firstIdx, hx]
      simp only [Bool.false_eq_true, if_false, Option.map_eq_none', ih, List.mem_cons]
      constructor
      · intro hall y hy
        rcases hy with rfl | hy
        · exact hx
        · exact hall y hy
      · intro hall y hy
        exact hall y (Or.inr hy)

theorem firstIdx_some (p : α → Bool) (xs : List α) (i : Nat)
    (h : firstIdx p xs = some i) :
    ∃ x, xs[i]? = some x ∧ p x = true := by
  induction xs generalizing i with
  | nil => simp [firstIdx] at h
  | cons x xs ih =>
    cases hx : p x with
    | true =>
      rw [firstIdx, hx, if_pos rfl] at h
      cases h
      exact ⟨x, by simp, hx⟩
    | false =>
      rw [firstIdx, hx] at h
      simp only [Bool.false_eq_true, if_false, Option.map_eq_some'] at h
      obtain ⟨j, hj, rfl⟩ := h
      obtain ⟨y, hy, hpy⟩ := ih j hj
      exact ⟨y, by simpa using hy, hpy⟩

theorem firstIdx_min (p : α → Bool) (xs : List α) (i : Nat)
    (h : firstIdx p xs = some i) :
    ∀ j, j < i → ∀ x, xs[j]? = some x → p x = false := by
  induction xs generalizing i with
  | nil => simp [firstIdx] at h
  | cons x xs ih =>
    cases hx : p x with
    | true =>
      rw [firstIdx, hx, if_pos rfl] at h
      cases h
      intro j hj
      exact absurd hj (Nat.not_lt_zero j)
    | false =>
      rw [firstIdx, hx] at h
      simp only [Bool.false_eq_true, if_false, Option.map_eq_some'] at h
      obtain ⟨k, hk, rfl⟩ := h
      intro j hj y hy
      cases j with
      | zero =>
        simp only [List.getElem?_cons_zero, Option.some.injEq] at hy
        subst hy
        exact hx
      | succ j =>
        simp only [List.getElem?_cons_succ] at hy
        exact ih k hk j (by omega) y hy

theorem updateAt_length (i : Nat) (f : α → α) (xs : List α) :
    (updateAt i f xs).length = xs.length := by
  induction xs generalizing i with
  | nil => cases i <;> rfl
  | cons x xs ih =>
    cases i with
    | zero => rfl
    | succ i => simpa [updateAt] using ih i

theorem updateAt_getElem_self (i : Nat) (f : α → α) (xs : List α) (x : α)
    (h : xs[i]? = some x) :
    (updateAt i f xs)[i]? = some (f x) := by
  induction xs generalizing i with
  | nil => simp at h
  | cons y ys ih =>
    cases i with
    | zero =>
      simp only [List.getElem?_cons_zero, Option.some.injEq] at h
      subst h
      simp [updateAt]
    | succ i =>
      simp only [List.getElem?_cons_succ] at h
      simpa [updateAt] using ih i h

theorem updateAt_getElem_ne (i j : Nat) (f : α → α) (xs : List α)
    (h : j ≠ i) :
    (updateAt i f xs)[j]? = xs[j]? := by
  induction xs generalizing i j with
  | nil => cases i <;> rfl
  | cons y ys ih =>
    cases i with
    | zero =>
      cases j with
      | zero => exact absurd rfl h
      | succ j => simp [updateAt]
    | succ i =>
      cases j with
      | zero => simp [updateAt]
      | succ j =>
        simpa [updateAt] using ih i j (by omega)

theorem countP_updateAt (q : α → Bool) (i : Nat) (f : α → α) (xs : List α)
    (x : α) (h : xs[i]? = some x) :
    (updateAt i f xs).countP q + (if q x then 1 else 0)
      = xs.countP q + (if q (f x) then 1 else 0) := by
  induction xs generalizing i with
  | nil => simp at h
  | cons y ys ih =>
    cases i with
    | zero =>
      simp only [List.getElem?_cons_zero, Option.some.injEq] at h
      subst h
      simp only [updateAt, List.countP_cons]
      omega
    | succ i =>
      simp only [List.getElem?_cons_succ] at h
      simp only [updateAt, List.countP_cons]
      have := ih i h
      omega

theorem RcCell.is_free_iff (c : RcCell T) :
    c.is_free = true ↔ c.strong_count = 1 := by
  simp [RcCell.is_free]

theorem RcCell.is_free_false_iff (c : RcCell T) :
    c.is_free = false ↔ c.strong_count ≠ 1 := by
  simp [RcCell.is_free]

theorem RcPool.create_eq_none_iff (p : RcPool T) :
    p.create = none ↔ ∀ c ∈ p.slots, c.strong_count ≠ 1 := by
  constructor
  · intro h c hc
    unfold RcPool.create at h
    cases hf : firstIdx RcCell.is_free p.pool_slice with
    | some i => rw [hf] at h; cases h
    | none =>
      have hfree := (firstIdx_eq_none_iff _ _).mp hf c hc
      exact (RcCell.is_free_false_iff c).mp hfree
  · intro h
    unfold RcPool.create
    have hnone : firstIdx RcCell.is_free p.pool_slice = none :=
      (firstIdx_eq_none_iff _ _).mpr
        (fun c hc => (RcCell.is_free_false_iff c).mpr (h c hc))
    rw [hnone]

theorem RcPool.nb_unused_eq_zero_iff (p : RcPool T) :
    p.nb_unused = 0 ↔ ∀ c ∈ p.slots, c.strong_count ≠ 1 := by
  unfold RcPool.nb_unused
  rw [List.countP_eq_zero]
  constructor
  · intro h c hc
    exact (RcCell.is_free_false_iff c).mp (by simpa using h c hc)
  · intro h c hc
    simpa using (RcCell.is_free_false_iff c).mpr (h c hc)

theorem RcPool.create_eq_none_iff_nb_unused (p : RcPool T) :
    p.create = none ↔ p.nb_unused = 0 := by
  rw [RcPool.create_eq_none_iff, RcPool.nb_unused_eq_zero_iff]

/-- Anatomy of a successful `create`: the returned index is in range, its
cell was free, every earlier cell was not, and the new state only bumps that
cell's strong count to 2. -/
theorem RcPool.create_some_spec (p : RcPool T) (i : Nat) (p' : RcPool T)
    (h : p.create = some (i, p')) :
    ∃ c, p.slots[i]? = some c ∧ c.strong_count = 1 ∧
      (∀ j, j < i → ∀ cj, p.slots[j]? = some cj → cj.strong_count ≠ 1) ∧
      p'.slots = updateAt i (fun c => { c with strong_count := c.strong_count + 1 }) p.slots := by
  unfold RcPool.create at h
  cases hf : firstIdx RcCell.is_free p.pool_slice with
  | none => rw [hf] at h; cases h
  | some k =>
    rw [hf] at h
    simp only [Option.some.injEq, Prod.mk.injEq] at h
    obtain ⟨rfl, rfl⟩ := h
    obtain ⟨c, hc, hfree⟩ := firstIdx_some _ _ _ hf
    refine ⟨c, hc, (RcCell.is_free_iff c).mp hfree, ?_, rfl⟩
    intro j hj cj hcj
    exact (RcCell.is_free_false_iff cj).mp (firstIdx_min _ _ _ hf j hj cj hcj)

theorem RcPool.nb_unused_create (p : RcPool T) (i : Nat) (p' : RcPool T)
    (h : p.create = some (i, p')) :
    p'.nb_unused + 1 = p.nb_unused := by
  obtain ⟨c, hc, hcount, -, hslots⟩ := RcPool.create_some_spec p i p' h
  have hcnt := countP_updateAt RcCell.is_free i
    (fun c => { c with strong_count := c.strong_count + 1 }) p.slots c hc
  have hfree : c.is_free = true := (RcCell.is_free_iff c).mpr hcount
  have hnotfree : RcCell.is_free { c with strong_count := c.strong_count + 1 } = false := by
    simp [RcCell.is_free, hcount]
  unfold RcPool.nb_unused RcPool.pool_slice
  rw [hslots]
  rw [hfree, hnotfree] at hcnt
  simpa using hcnt

theorem RcPool.create_strict_eq (p : RcPool T) :
    p.create_strict =
      match p.create with
      | some r => .ok r
      | none => .error (.poolError "The RcPool is out of objects !") := by
  unfold RcPool.create_strict RcPool.create
  cases firstIdx RcCell.is_free p.pool_slice <;> rfl

theorem RcPool.nb_unused_with_capacity (n : Nat) (op : Nat → T) :
    (RcPool.with_capacity n op).nb_unused = n := by
  unfold RcPool.nb_unused RcPool.pool_slice RcPool.with_capacity
  have hall : ∀ c ∈ (List.range n).map
      (fun i => ({ payload := op i, strong_count := 1 } : RcCell T)),
      RcCell.is_free c = true := by
    intro c hc
    simp only [List.mem_map] at hc
    obtain ⟨i, -, rfl⟩ := hc
    rfl
  rw [List.countP_eq_length.mpr hall]
  simp

theorem RcPool.createN_drains (k : Nat) :
    ∀ p : RcPool T, p.nb_unused = k →
      ∃ p', RcPool.createN k p = some p' ∧ p'.nb_unused = 0 := by
  induction k with
  | zero => exact fun p h => ⟨p, rfl, h⟩
  | succ k ih =>
    intro p h
    cases hc : p.create with
    | none =>
      rw [RcPool.create_eq_none_iff_nb_unused] at hc
      omega
    | some r =>
      obtain ⟨i, p'⟩ := r
      have hnb := RcPool.nb_unused_create p i p' hc
      obtain ⟨p'', h1, h2⟩ := ih p' (by omega)
      refine ⟨p'', ?_, h2⟩
      unfold RcPool.createN
      rw [hc]
      exact h1

theorem ArcHandle.drop_at_two (reinit : T → T) (a : ArcCell T)
    (h : a.strong_count = 2) :
    ArcHandle.drop reinit a =
      if a.lock.try_write_ok then
        some { a with payload := reinit a.payload, strong_count := 1 }
      else none := by
  obtain ⟨pl, sc, rd, wr, ps⟩ := a
  simp only at h
  subst h
  cases wr <;> cases ps <;> cases rd <;>
    simp [ArcHandle.drop, ArcHandle.drop_handle, LockState.try_write_ok]

theorem ArcHandle.drop_not_two (reinit : T → T) (a : ArcCell T)
    (h : a.strong_count ≠ 2) :
    ArcHandle.drop reinit a = some { a with strong_count := a.strong_count - 1 } := by
  simp [ArcHandle.drop, ArcHandle.drop_handle, h]

/-- Claim C1: for every handle, dropping a clone reinitializes the wrapped
payload exactly when the strong reference count is 2 at the moment of the
drop (the dropped clone plus the pool's internal copy); a drop at any other
count leaves the payload unchanged and merely decrements the count, and
after a reinitializing drop only the pool holds a reference (count 1).
Stated for the `RcHandle` destructor and for every completed `ArcHandle`
destructor. -/
theorem claim_C1 (T : Type) (reinit : T → T) (c : RcCell T) :
    (c.strong_count = 2 →
      RcHandle.drop_cell reinit c =
        { payload := reinit c.payload, strong_count := 1 }) ∧
    (c.strong_count ≠ 2 →
      RcHandle.drop_cell reinit c =
        { payload := c.payload, strong_count := c.strong_count - 1 }) ∧
    (∀ a : ArcCell T, ∀ a', ArcHandle.drop reinit a = some a' →
      (a.strong_count = 2 →
        a'.payload = reinit a.payload ∧ a'.strong_count = 1) ∧
      (a.strong_count ≠ 2 →
        a'.payload = a.payload ∧ a'.strong_count = a.strong_count - 1)) := by
  refine ⟨?_, ?_, ?_⟩
  · intro h
    simp [RcHandle.drop_cell, h]
  · intro h
    simp [RcHandle.drop_cell, h]
  · intro a a' ha
    constructor
    · intro h2
      rw [ArcHandle.drop_at_two reinit a h2] at ha
      by_cases hw : a.lock.try_write_ok
      · rw [if_pos hw] at ha
        cases ha
        exact ⟨rfl, rfl⟩
      · rw [if_neg hw] at ha
        cases ha
    · intro h2
      rw [ArcHandle.drop_not_two reinit a h2] at ha
      cases ha
      exact ⟨rfl, rfl⟩

/-- Witness for C1: the reinitializing branch at a concrete cell of strong
count 2. -/
theorem claim_C1_witness :
    ({ payload := Monster.default, strong_count := 2 } : RcCell Monster).strong_count = 2 ∧
    RcHandle.drop_cell Monster.reinitialize
      { payload := Monster.default, strong_count := 2 } =
      { payload := Monster.reinitialize Monster.default, strong_count := 1 } :=
  ⟨by decide,
   (claim_C1 Monster Monster.reinitialize
     { payload := Monster.default, strong_count := 2 }).1 (by decide)⟩

/-- Claim C2: a pool built with capacity `n` whose `n` acquisitions all
succeed with every returned handle kept alive is exhausted afterwards: the
`(n+1)`-th `create` returns `none`, `create_strict` returns the exhaustion
error, and `nb_unused` returns 0. -/
theorem claim_C2 (T : Type) (n : Nat) (op : Nat → T) :
    ∃ p', (RcPool.with_capacity n op).createN n = some p' ∧
      p'.nb_unused = 0 ∧ p'.create = none ∧
      p'.create_strict = .error (.poolError "The RcPool is out of objects !") := by
  obtain ⟨p', h1, h2⟩ :=
    RcPool.createN_drains n (RcPool.with_capacity n op)
      (RcPool.nb_unused_with_capacity n op)
  have hnone : p'.create = none := (RcPool.create_eq_none_iff_nb_unused p').mpr h2
  refine ⟨p', h1, h2, hnone, ?_⟩
  rw [RcPool.create_strict_eq, hnone]

/-- Witness for C2: the exhaustion statement at a concrete capacity-2 pool of
default monsters. -/
theorem claim_C2_witness :
    ∃ p', (RcPool.with_capacity 2 (fun _ => Monster.default)).createN 2 = some p' ∧
      p'.nb_unused = 0 ∧ p'.create = none ∧
      p'.create_strict = .error (.poolError "The RcPool is out of objects !") :=
  claim_C2 Monster 2 (fun _ => Monster.default)

/-- Claim C3: `create` scans the backing sequence in index order and returns
a clone of the first handle whose strong count is 1, leaving that slot at
count 2 with its payload untouched; it returns `none` exactly when no handle
has count 1, and the chosen index is the smallest free one. -/
theorem claim_C3 (T : Type) (p : RcPool T) :
    (∀ i p', p.create = some (i, p') →
      ∃ c, p.slots[i]? = some c ∧ c.strong_count = 1 ∧
        (∀ j, j < i → ∀ cj, p.slots[j]? = some cj → cj.strong_count ≠ 1) ∧
        p'.slots[i]? = some { payload := c.payload, strong_count := 2 }) ∧
    (p.create = none ↔ ∀ c ∈ p.slots, c.strong_count ≠ 1) := by
  constructor
  · intro i p' h
    obtain ⟨c, hc, h1, hmin, hslots⟩ := RcPool.create_some_spec p i p' h
    refine ⟨c, hc, h1, hmin, ?_⟩
    rw [hslots,
      updateAt_getElem_self i (fun c => { c with strong_count := c.strong_count + 1 }) p.slots c hc]
    simp [h1]
  · exact RcPool.create_eq_none_iff p


/-- Witness for C3: on the concrete pool whose slot 0 is checked out and
slot 1 free, `create` picks index 1 and bumps it to count 2. -/
theorem claim_C3_witness :
    rcPoolW.create = some (1, rcPoolWAfter) ∧
    (∃ c, rcPoolW.slots[1]? = some c ∧ c.strong_count = 1 ∧
      (∀ j, j < 1 → ∀ cj, rcPoolW.slots[j]? = some cj → cj.strong_count ≠ 1) ∧
      rcPoolWAfter.slots[1]? = some { payload := Monster.default, strong_count := 2 }) := by
  have h : rcPoolW.create = some (1, rcPoolWAfter) := by decide
  refine ⟨h, ?_⟩
  have hinst := (claim_C3 Monster rcPoolW).1 1 rcPoolWAfter h
  obtain ⟨c, hc, h1, hmin, hafter⟩ := hinst
  have hcd : c = { payload := Monster.default, strong_count := 1 } := by
    cases hc
    rfl
  refine ⟨c, hc, h1, hmin, ?_⟩
  rw [hafter, hcd]

/-- Claim C4: `create_strict` performs the same scan as `create` and agrees
with it — `Ok` of exactly the result `create` would return, and the
exhaustion error exactly when `create` returns `none`, which, for reachable
pools (the pool's own reference keeps every count at least 1), happens
exactly when every slot's count is at least 2. -/
theorem claim_C4 (T : Type) (p : RcPool T)
    (hwf : ∀ c ∈ p.slots, 1 ≤ c.strong_count) :
    (p.create_strict =
      match p.create with
      | some r => .ok r
      | none => .error (.poolError "The RcPool is out of objects !")) ∧
    ((∃ e, p.create_strict = .error e) ↔ ∀ c ∈ p.slots, 2 ≤ c.strong_count) := by
  refine ⟨RcPool.create_strict_eq p, ?_⟩
  rw [RcPool.create_strict_eq]
  cases hc : p.create with
  | some r =>
    constructor
    · rintro ⟨e, he⟩
      cases he
    · intro hall
      obtain ⟨i, p'⟩ := r
      obtain ⟨c, hcel, h1, -, -⟩ := RcPool.create_some_spec p i p' hc
      have hmem : c ∈ p.slots := List.getElem?_mem hcel
      have := hall c hmem
      omega
  | none =>
    constructor
    · intro _ c hcmem
      have hne := (RcPool.create_eq_none_iff p).mp hc c hcmem
      have := hwf c hcmem
      omega
    · intro _
      exact ⟨_, rfl⟩

/-- Witness for C4: on the concrete pool with slot 0 checked out and slot 1
free, the strict and non-strict scans agree. -/
theorem claim_C4_witness :
    (∀ c ∈ rcPoolW.slots, 1 ≤ c.strong_count) ∧
    ((rcPoolW.create_strict =
      match rcPoolW.create with
      | some r => .ok r
      | none => .error (.poolError "The RcPool is out of objects !")) ∧
    ((∃ e, rcPoolW.create_strict = .error e) ↔
      ∀ c ∈ rcPoolW.slots, 2 ≤ c.strong_count)) :=
  ⟨by decide, claim_C4 Monster rcPoolW (by decide)⟩

/-- Claim C5: dropping a concurrent handle whose strong count is 2 panics —
the drop aborts — exactly when the write lock cannot be taken without
blocking (contention or poisoning); it never completes with the
reinitialization silently skipped, and the destructor has no caller to
return an error to (a completed drop at count 2 always carries the
reinitialized payload). -/
theorem claim_C5 (T : Type) (reinit : T → T) (a : ArcCell T)
    (h : a.strong_count = 2) :
    (ArcHandle.drop reinit a = none ↔ a.lock.try_write_ok = false) ∧
    (∀ a', ArcHandle.drop reinit a = some a' →
      a'.payload = reinit a.payload ∧ a'.strong_count = 1) := by
  rw [ArcHandle.drop_at_two reinit a h]
  by_cases hw : a.lock.try_write_ok
  · rw [if_pos hw]
    refine ⟨?_, ?_⟩
    · simp [hw]
    · intro a' ha'
      cases ha'
      exact ⟨rfl, rfl⟩
  · rw [if_neg hw]
    simp only [Bool.not_eq_true] at hw
    refine ⟨by simp [hw], ?_⟩
    intro a' ha'
    cases ha'

/-- Witness for C5: at a concrete count-2 cell whose lock is held by a
reader, the drop panics. -/
theorem claim_C5_witness :
    arcCellContended.strong_count = 2 ∧
    ((ArcHandle.drop Monster.reinitialize arcCellContended = none ↔
      arcCellContended.lock.try_write_ok = false) ∧
    (∀ a', ArcHandle.drop Monster.reinitialize arcCellContended = some a' →
      a'.payload = Monster.reinitialize arcCellContended.payload ∧
      a'.strong_count = 1)) :=
  ⟨by decide, claim_C5 Monster Monster.reinitialize arcCellContended (by decide)⟩

theorem RcPool.nb_unused_eq (p : RcPool T) :
    p.nb_unused = p.slots.countP RcCell.is_free := rfl

/-- Claim C6: acquire-mutate-release round trip. When `create` hands out the
slot at index `i`, mutating its payload through the handle and then dropping
the handle (no other external holder) restores `nb_unused` to its
pre-acquisition value and leaves the slot free with its payload in the
reinitialized state computed from the mutated value — so any re-acquisition
of that slot observes the reinitialized state, not the prior mutation. -/
theorem claim_C6 (T : Type) (reinit g : T → T) (p : RcPool T) (i : Nat)
    (p1 : RcPool T) (h : p.create = some (i, p1)) :
    ((p1.mutate i g).drop_handle reinit i).nb_unused = p.nb_unused ∧
    ∃ c, p.slots[i]? = some c ∧
      ((p1.mutate i g).drop_handle reinit i).slots[i]? =
        some { payload := reinit (g c.payload), strong_count := 1 } := by
  obtain ⟨c, hc, h1, -, hslots⟩ := RcPool.create_some_spec p i p1 h
  have hp1 : p1.slots[i]? = some { payload := c.payload, strong_count := 2 } := by
    rw [hslots, updateAt_getElem_self i
      (fun c => { c with strong_count := c.strong_count + 1 }) p.slots c hc]
    simp [h1]
  have hp2 : (p1.mutate i g).slots[i]? =
      some { payload := g c.payload, strong_count := 2 } := by
    show (updateAt i (fun c => { c with payload := g c.payload }) p1.slots)[i]? = _
    rw [updateAt_getElem_self i (fun c => { c with payload := g c.payload })
      p1.slots _ hp1]
  have hp3 : ((p1.mutate i g).drop_handle reinit i).slots[i]? =
      some { payload := reinit (g c.payload), strong_count := 1 } := by
    show (updateAt i (RcHandle.drop_cell reinit) (p1.mutate i g).slots)[i]? = _
    rw [updateAt_getElem_self i (RcHandle.drop_cell reinit)
      (p1.mutate i g).slots _ hp2]
    rfl
  refine ⟨?_, c, hc, hp3⟩
  have hcre := RcPool.nb_unused_create p i p1 h
  have hmut := countP_updateAt RcCell.is_free i
    (fun c => { c with payload := g c.payload }) p1.slots _ hp1
  have hdrp := countP_updateAt RcCell.is_free i
    (RcHandle.drop_cell reinit) (p1.mutate i g).slots _ hp2
  have hms : (p1.mutate i g).slots
      = updateAt i (fun c => { c with payload := g c.payload }) p1.slots := rfl
  simp only [show RcCell.is_free { payload := c.payload, strong_count := 2 } = false
      from rfl,
    show RcCell.is_free { payload := g c.payload, strong_count := 2 } = false
      from rfl,
    Bool.false_eq_true, if_false] at hmut
  simp only [show RcCell.is_free { payload := g c.payload, strong_count := 2 } = false
      from rfl,
    show RcCell.is_free (RcHandle.drop_cell reinit
      { payload := g c.payload, strong_count := 2 }) = true from rfl,
    Bool.false_eq_true, if_false, if_true] at hdrp
  rw [RcPool.nb_unused_eq] at hcre
  rw [← hms] at hmut
  show (updateAt i (RcHandle.drop_cell reinit) (p1.mutate i g).slots).countP
    RcCell.is_free = p.slots.countP RcCell.is_free
  have e1 : (updateAt i (RcHandle.drop_cell reinit) (p1.mutate i g).slots).countP
      RcCell.is_free = ((p1.mutate i g).slots).countP RcCell.is_free + 1 := by
    simpa using hdrp
  have e2 : ((p1.mutate i g).slots).countP RcCell.is_free
      = p1.slots.countP RcCell.is_free := by
    simpa using hmut
  have e3 : p1.slots.countP RcCell.is_free + 1 = p.slots.countP RcCell.is_free := by
    simpa using hcre
  rw [e1, e2, e3]

/-- Witness for C6: the round trip on the concrete fully free pool —
acquire slot 0, level the monster up, drop; the free count returns to 2 and
slot 0 holds the reinitialized monster. -/
theorem claim_C6_witness :
    rcPoolFree.create = some (0, rcPoolW) ∧
    (((rcPoolW.mutate 0 Monster.level_up).drop_handle Monster.reinitialize 0).nb_unused
        = rcPoolFree.nb_unused ∧
      ∃ c, rcPoolFree.slots[0]? = some c ∧
        ((rcPoolW.mutate 0 Monster.level_up).drop_handle Monster.reinitialize 0).slots[0]? =
          some { payload := Monster.reinitialize (Monster.level_up c.payload)
                 , strong_count := 1 }) :=
  ⟨by decide,
   claim_C6 Monster Monster.reinitialize Monster.level_up rcPoolFree 0 rcPoolW
     (by decide)⟩

/-- Claim C7: forced acquisition by predicate scans every slot in index
order, free or checked out; the first slot satisfying the predicate gets its
payload reinitialized to the default and is marked in use, its strong count
grows by one, every other slot is untouched, and when every slot was
checked out the free count stays 0; with no matching slot the call returns
`none`. -/
theorem claim_C7 (T : Type) (default : T) (pred : ObjCell T → Bool)
    (p : ObjectPool T) :
    (∀ i p', p.force_create_with_filter default pred = some (i, p') →
      ∃ c, p.slots[i]? = some c ∧ pred c = true ∧
        (∀ j, j < i → ∀ cj, p.slots[j]? = some cj → pred cj = false) ∧
        p'.slots[i]? = some { obj := { object := default, in_use := true },
                              strong_count := c.strong_count + 1 } ∧
        (∀ j, j ≠ i → p'.slots[j]? = p.slots[j]?) ∧
        (p.nb_unused = 0 → p'.nb_unused = 0)) ∧
    (p.force_create_with_filter default pred = none ↔
      ∀ c ∈ p.slots, pred c = false) := by
  constructor
  · intro i p' h
    unfold ObjectPool.force_create_with_filter at h
    cases hf : firstIdx pred p.slots with
    | none => rw [hf] at h; cases h
    | some k =>
      rw [hf] at h
      simp only [Option.some.injEq, Prod.mk.injEq] at h
      obtain ⟨rfl, rfl⟩ := h
      obtain ⟨c, hc, hpc⟩ := firstIdx_some _ _ _ hf
      refine ⟨c, hc, hpc, ?_, ?_, ?_, ?_⟩
      · intro j hj cj hcj
        exact firstIdx_min _ _ _ hf j hj cj hcj
      · exact updateAt_getElem_self k _ p.slots c hc
      · intro j hj
        exact updateAt_getElem_ne k j _ p.slots hj
      · intro hzero
        unfold ObjectPool.nb_unused at hzero ⊢
        have hcnt := countP_updateAt (fun c => !c.obj.in_use) k
          (fun c => { obj := { object := default, in_use := true },
                      strong_count := c.strong_count + 1 }) p.slots c hc
        simp at hcnt
        rw [hzero] at hcnt
        exact Nat.eq_zero_of_add_eq_zero_right hcnt
  · constructor
    · intro h c hc
      unfold ObjectPool.force_create_with_filter at h
      cases hf : firstIdx pred p.slots with
      | some k => rw [hf] at h; cases h
      | none => exact (firstIdx_eq_none_iff pred p.slots).mp hf c hc
    · intro hall
      unfold ObjectPool.force_create_with_filter
      rw [(firstIdx_eq_none_iff pred p.slots).mpr hall]

/-- Witness for C7: on the concrete fully checked-out pool whose slot 1
holds a level-11 monster, forcing with the level-11 predicate evicts slot 1,
resets its payload, bumps its count to 3 and keeps the free count at 0. -/
theorem claim_C7_witness :
    objPoolW.force_create_with_filter Monster.default
        (fun c => c.obj.object.level == 11) = some (1, objPoolWAfter) ∧
    (∃ c, objPoolW.slots[1]? = some c ∧
      (fun c : ObjCell Monster => c.obj.object.level == 11) c = true ∧
      (∀ j, j < 1 → ∀ cj, objPoolW.slots[j]? = some cj →
        (fun c : ObjCell Monster => c.obj.object.level == 11) cj = false) ∧
      objPoolWAfter.slots[1]? = some { obj := { object := Monster.default,
                                                in_use := true },
                                       strong_count := c.strong_count + 1 } ∧
      (∀ j, j ≠ 1 → objPoolWAfter.slots[j]? = objPoolW.slots[j]?) ∧
      (objPoolW.nb_unused = 0 → objPoolWAfter.nb_unused = 0)) :=
  ⟨by decide,
   (claim_C7 Monster Monster.default (fun c => c.obj.object.level == 11)
     objPoolW).1 1 objPoolWAfter (by decide)⟩

/-- Claim C8: `with_capacity size op` invokes the factory exactly `size`
times, producing exactly `size` handles, the `i`-th wrapping the result of
the `i`-th invocation; `capacity` returns that same `size`, and no
acquisition (plain or strict), drop, payload mutation or pool clone ever
changes the capacity; a forced acquisition (of the boolean-flag variant)
also keeps the backing sequence's length. -/
theorem claim_C8 (T : Type) (n : Nat) (op : Nat → T) (reinit g : T → T) :
    (RcPool.with_capacity n op).capacity = n ∧
    (RcPool.with_capacity n op).slots.length = n ∧
    (∀ i, i < n → (RcPool.with_capacity n op).slots[i]? =
      some { payload := op i, strong_count := 1 }) ∧
    (∀ p : RcPool T, ∀ i p', p.create = some (i, p') →
      p'.capacity = p.capacity) ∧
    (∀ p : RcPool T, ∀ i p', p.create_strict = .ok (i, p') →
      p'.capacity = p.capacity) ∧
    (∀ p : RcPool T, ∀ i, (p.drop_handle reinit i).capacity = p.capacity) ∧
    (∀ p : RcPool T, ∀ i, (p.mutate i g).capacity = p.capacity) ∧
    (∀ p : RcPool T, p.clone.capacity = p.capacity) ∧
    (∀ q : ObjectPool T, ∀ d, ∀ pr : ObjCell T → Bool, ∀ i q',
      q.force_create_with_filter d pr = some (i, q') →
      q'.slots.length = q.slots.length) := by
  refine ⟨?_, ?_, ?_, ?_, ?_, ?_, ?_, ?_, ?_⟩
  · show ((List.range n).map
      (fun i => ({ payload := op i, strong_count := 1 } : RcCell T))).length = n
    simp
  · show ((List.range n).map
      (fun i => ({ payload := op i, strong_count := 1 } : RcCell T))).length = n
    simp
  · intro i hi
    show ((List.range n).map
      (fun i => ({ payload := op i, strong_count := 1 } : RcCell T)))[i]? = _
    rw [List.getElem?_map, List.getElem?_range hi]
    rfl
  · intro p i p' h
    obtain ⟨c, hc, -, -, hslots⟩ := RcPool.create_some_spec p i p' h
    show p'.slots.length = p.slots.length
    rw [hslots, updateAt_length]
  · intro p i p' h
    rw [RcPool.create_strict_eq] at h
    cases hc : p.create with
    | none =>
      rw [hc] at h
      cases h
    | some r' =>
      rw [hc] at h
      have h' : (Except.ok r' : PoolResult (Nat × RcPool T)) = .ok (i, p') := h
      cases h'
      obtain ⟨c, hc2, -, -, hslots⟩ := RcPool.create_some_spec p i p' hc
      show p'.slots.length = p.slots.length
      rw [hslots, updateAt_length]
  · intro p i
    show (updateAt i (RcHandle.drop_cell reinit) p.slots).length = p.slots.length
    rw [updateAt_length]
  · intro p i
    show (updateAt i (fun c => { c with payload := g c.payload }) p.slots).length
      = p.slots.length
    rw [updateAt_length]
  · intro p
    simp [RcPool.clone, RcPool.capacity]
  · intro q d pr i q' h
    unfold ObjectPool.force_create_with_filter at h
    cases hf : firstIdx pr q.slots with
    | none =>
      rw [hf] at h
      cases h
    | some k =>
      rw [hf] at h
      simp only [Option.some.injEq, Prod.mk.injEq] at h
      obtain ⟨rfl, rfl⟩ := h
      exact updateAt_length k _ q.slots

/-- Witness for C8: in the concrete capacity-2 pool of default monsters,
slot 0 wraps the first factory result at count 1. -/
theorem claim_C8_witness :
    0 < 2 ∧ (RcPool.with_capacity 2 (fun _ => Monster.default)).slots[0]? =
      some { payload := Monster.default, strong_count := 1 } :=
  ⟨by decide,
   (claim_C8 Monster 2 (fun _ => Monster.default) Monster.reinitialize
     Monster.level_up).2.2.1 0 (by decide)⟩

/-- Claim C9: `RcPool` derives `Clone`, and cloning the pool clones every
handle, raising every cell's strong count to at least 2 (the original and
the clone alias the same cells); immediately after the clone of a pool with
no external holders, `nb_unused` reports 0 and both `create` and
`create_strict` fail, although no consumer holds a handle. -/
theorem claim_C9 (T : Type) (p : RcPool T) (_hne : p.slots ≠ [])
    (hfree : ∀ c ∈ p.slots, c.strong_count = 1) :
    (∀ c' ∈ p.clone.slots, 2 ≤ c'.strong_count) ∧
    p.clone.nb_unused = 0 ∧
    p.clone.create = none ∧
    p.clone.create_strict = .error (.poolError "The RcPool is out of objects !") := by
  have hge : ∀ c' ∈ p.clone.slots, 2 ≤ c'.strong_count := by
    intro c' hc'
    simp only [RcPool.clone, List.mem_map] at hc'
    obtain ⟨c, hc, rfl⟩ := hc'
    have := hfree c hc
    show 2 ≤ c.strong_count + 1
    omega
  have hnone : p.clone.create = none := by
    rw [RcPool.create_eq_none_iff]
    intro c' hc'
    have := hge c' hc'
    omega
  refine ⟨hge, ?_, hnone, ?_⟩
  · rw [RcPool.nb_unused_eq_zero_iff]
    intro c' hc'
    have := hge c' hc'
    omega
  · rw [RcPool.create_strict_eq, hnone]

/-- Witness for C9: cloning the concrete fully free two-slot pool leaves
both copies exhausted. -/
theorem claim_C9_witness :
    rcPoolFree.slots ≠ [] ∧ (∀ c ∈ rcPoolFree.slots, c.strong_count = 1) ∧
    ((∀ c' ∈ rcPoolFree.clone.slots, 2 ≤ c'.strong_count) ∧
     rcPoolFree.clone.nb_unused = 0 ∧
     rcPoolFree.clone.create = none ∧
     rcPoolFree.clone.create_strict =
       .error (.poolError "The RcPool is out of objects !")) :=
  ⟨by decide, by decide, claim_C9 Monster rcPoolFree (by decide) (by decide)⟩

/-- Claim C10: frame property of acquisition. A successful `create` changes
only the chosen slot's strong count, from 1 to 2: every other slot is
unchanged, every payload (the chosen one's included) is unchanged, the
backing sequence keeps its length and order, `nb_unused` decreases by
exactly one and `capacity` is unchanged; a failed `create` leaves the pool
untouched. (`nb_unused`, `capacity` and `pool_slice` are read-only
observations by construction: they are functions of the pool state.) -/
theorem claim_C10 (T : Type) (p : RcPool T) (i : Nat) (p' : RcPool T)
    (h : p.create = some (i, p')) :
    p'.slots.length = p.slots.length ∧
    (∀ j, j ≠ i → p'.slots[j]? = p.slots[j]?) ∧
    (∃ c, p.slots[i]? = some c ∧ c.strong_count = 1 ∧
      p'.slots[i]? = some { payload := c.payload, strong_count := 2 }) ∧
    (∀ (j : Nat) (cj' : RcCell T), p'.slots[j]? = some cj' →
      ∃ cj, p.slots[j]? = some cj ∧ cj'.payload = cj.payload) ∧
    p'.nb_unused + 1 = p.nb_unused ∧
    p'.capacity = p.capacity ∧
    (∀ q : RcPool T, q.create = none → q.create_observed = (none, q)) := by
  obtain ⟨c, hc, h1, -, hslots⟩ := RcPool.create_some_spec p i p' h
  have hlen : p'.slots.length = p.slots.length := by
    rw [hslots, updateAt_length]
  have hother : ∀ j, j ≠ i → p'.slots[j]? = p.slots[j]? := by
    intro j hj
    rw [hslots]
    exact updateAt_getElem_ne i j _ p.slots hj
  have hself : p'.slots[i]? = some { payload := c.payload, strong_count := 2 } := by
    rw [hslots, updateAt_getElem_self i
      (fun c => { c with strong_count := c.strong_count + 1 }) p.slots c hc]
    simp [h1]
  refine ⟨hlen, hother, ⟨c, hc, h1, hself⟩, ?_,
    RcPool.nb_unused_create p i p' h, hlen, ?_⟩
  · intro j cj' hcj'
    by_cases hj : j = i
    · subst hj
      rw [hself] at hcj'
      cases hcj'
      exact ⟨c, hc, rfl⟩
    · rw [hother j hj] at hcj'
      exact ⟨cj', hcj', rfl⟩
  · intro q hq
    unfold RcPool.create_observed
    rw [hq]

/-- Witness for C10: the frame property at the concrete pool with slot 0
checked out and slot 1 free. -/
theorem claim_C10_witness :
    rcPoolW.create = some (1, rcPoolWAfter) ∧
    (rcPoolWAfter.slots.length = rcPoolW.slots.length ∧
    (∀ j, j ≠ 1 → rcPoolWAfter.slots[j]? = rcPoolW.slots[j]?) ∧
    (∃ c, rcPoolW.slots[1]? = some c ∧ c.strong_count = 1 ∧
      rcPoolWAfter.slots[1]? = some { payload := c.payload, strong_count := 2 }) ∧
    (∀ (j : Nat) (cj' : RcCell Monster), rcPoolWAfter.slots[j]? = some cj' →
      ∃ cj, rcPoolW.slots[j]? = some cj ∧ cj'.payload = cj.payload) ∧
    rcPoolWAfter.nb_unused + 1 = rcPoolW.nb_unused ∧
    rcPoolWAfter.capacity = rcPoolW.capacity ∧
    (∀ q : RcPool Monster, q.create = none → q.create_observed = (none, q))) :=
  ⟨by decide, claim_C10 Monster rcPoolW 1 rcPoolWAfter (by decide)⟩
